import Mathlib

/-!
Verification development for the llsd-rs repository: a shallow embedding of
the LLSD value model, the notation text codec, and the binary codec, with
theorems checking the natural-language specification against the code.

Modelling conventions:
* Rust byte strings (`&[u8]`, `String`, `Vec<u8>`) are `List Nat`, each
  element a byte value below 256.  All Rust string operations used by the
  code (split on the slash byte, substring replacement, decimal parsing)
  are ASCII-safe, so the byte-level model is exact.
* Rust `HashMap<String, Llsd>` is an association list.  Insertion with an
  existing key overwrites in place; a fresh key is appended.  The list
  order stands for the iteration order of one concrete `HashMap` instance.
* `f64` values are modelled by their exact denotation `F64`: a finite
  value is the exact rational the bit pattern denotes, plus NaN and the
  two infinities.  Where the code performs an f64 operation, the model
  performs the exact operation on the denotation; every theorem below
  evaluates such operations only at inputs where the Rust computation is
  exact (small dyadic rationals), so the model agrees with the machine
  arithmetic there.
* External collaborators (the f64/uuid/chrono/url text formatters and
  parsers from outside crates) are supplied through an `Externals`
  record; every theorem that touches a code path which cannot reach them
  quantifies over all possible externals.
-/

set_option maxRecDepth 100000

namespace LlsdRs

/-- Byte strings: the model of Rust `&[u8]` / `String` / `Vec<u8>`. -/
abbrev ByteStr := List Nat

/-- The exact denotation of an IEEE-754 double. -/
inductive F64 where
  | finite (q : ℚ)
  | nan
  | inf
  | neginf
  deriving DecidableEq, Repr

/-- Model of chrono `DateTime<Utc>`: seconds since the Unix epoch (floor)
and the sub-second nanoseconds, as stored by chrono. -/
structure ChronoDate where
  secs : Int
  nanos : Nat
  deriving DecidableEq, Repr

/-- Model of the 3-way `Uri` sum from `lib.rs`: empty, a parsed URL
(kept as its normalized text), or unparsed text with the parse error. -/
inductive Uri where
  | empty
  | url (s : ByteStr)
  | str (s : ByteStr)
  deriving DecidableEq, Repr

/-- `Uri::as_str` from `lib.rs`. -/
def Uri.asStr : Uri → ByteStr
  | .empty => []
  | .url s => s
  | .str s => s

/-- The LLSD value model: the `Llsd` enum of `lib.rs` (both crate trees
declare the identical enum). -/
inductive Llsd where
  | undefined
  | boolean (b : Bool)
  | integer (n : Int)
  | real (x : F64)
  | string (s : ByteStr)
  | uri (u : Uri)
  | uuid (u : Nat)
  | date (d : ChronoDate)
  | binary (b : ByteStr)
  | array (xs : List Llsd)
  | map (m : List (ByteStr × Llsd))
  deriving Repr

/-- The 256-entry escape lookup table `STRING_CHARACTERS` from
`notation.rs`, transcribed entry by entry (each entry is the byte
sequence the writer emits for the input byte at that index). -/
def STRING_CHARACTERS : List (List Nat) := [
  [92, 120, 48, 48],  -- 0
  [92, 120, 48, 49],  -- 1
  [92, 120, 48, 50],  -- 2
  [92, 120, 48, 51],  -- 3
  [92, 120, 48, 52],  -- 4
  [92, 120, 48, 53],  -- 5
  [92, 120, 48, 54],  -- 6
  [92, 97],  -- 7
  [92, 98],  -- 8
  [92, 116],  -- 9
  [92, 110],  -- 10
  [92, 118],  -- 11
  [92, 102],  -- 12
  [92, 114],  -- 13
  [92, 120, 48, 101],  -- 14
  [92, 120, 48, 102],  -- 15
  [92, 120, 49, 48],  -- 16
  [92, 120, 49, 49],  -- 17
  [92, 120, 49, 50],  -- 18
  [92, 120, 49, 51],  -- 19
  [92, 120, 49, 52],  -- 20
  [92, 120, 49, 53],  -- 21
  [92, 120, 49, 54],  -- 22
  [92, 120, 49, 55],  -- 23
  [92, 120, 49, 56],  -- 24
  [92, 120, 49, 57],  -- 25
  [92, 120, 49, 97],  -- 26
  [92, 120, 49, 98],  -- 27
  [92, 120, 49, 99],  -- 28
  [92, 120, 49, 100],  -- 29
  [92, 120, 49, 101],  -- 30
  [92, 120, 49, 102],  -- 31
  [32],  -- 32
  [33],  -- 33
  [34],  -- 34
  [35],  -- 35
  [36],  -- 36
  [37],  -- 37
  [38],  -- 38
  [92, 39],  -- 39
  [40],  -- 40
  [41],  -- 41
  [42],  -- 42
  [43],  -- 43
  [44],  -- 44
  [45],  -- 45
  [46],  -- 46
  [47],  -- 47
  [48],  -- 48
  [49],  -- 49
  [50],  -- 50
  [51],  -- 51
  [52],  -- 52
  [53],  -- 53
  [54],  -- 54
  [55],  -- 55
  [56],  -- 56
  [57],  -- 57
  [58],  -- 58
  [59],  -- 59
  [60],  -- 60
  [61],  -- 61
  [62],  -- 62
  [63],  -- 63
  [64],  -- 64
  [65],  -- 65
  [66],  -- 66
  [67],  -- 67
  [68],  -- 68
  [69],  -- 69
  [70],  -- 70
  [71],  -- 71
  [72],  -- 72
  [73],  -- 73
  [74],  -- 74
  [75],  -- 75
  [76],  -- 76
  [77],  -- 77
  [78],  -- 78
  [79],  -- 79
  [80],  -- 80
  [81],  -- 81
  [82],  -- 82
  [83],  -- 83
  [84],  -- 84
  [85],  -- 85
  [86],  -- 86
  [87],  -- 87
  [88],  -- 88
  [89],  -- 89
  [90],  -- 90
  [91],  -- 91
  [92, 92],  -- 92
  [93],  -- 93
  [94],  -- 94
  [95],  -- 95
  [96],  -- 96
  [97],  -- 97
  [98],  -- 98
  [99],  -- 99
  [100],  -- 100
  [101],  -- 101
  [102],  -- 102
  [103],  -- 103
  [104],  -- 104
  [105],  -- 105
  [106],  -- 106
  [107],  -- 107
  [108],  -- 108
  [109],  -- 109
  [110],  -- 110
  [111],  -- 111
  [112],  -- 112
  [113],  -- 113
  [114],  -- 114
  [115],  -- 115
  [116],  -- 116
  [117],  -- 117
  [118],  -- 118
  [119],  -- 119
  [120],  -- 120
  [121],  -- 121
  [122],  -- 122
  [123],  -- 123
  [124],  -- 124
  [125],  -- 125
  [126],  -- 126
  [92, 120, 55, 102],  -- 127
  [92, 120, 56, 48],  -- 128
  [92, 120, 56, 49],  -- 129
  [92, 120, 56, 50],  -- 130
  [92, 120, 56, 51],  -- 131
  [92, 120, 56, 52],  -- 132
  [92, 120, 56, 53],  -- 133
  [92, 120, 56, 54],  -- 134
  [92, 120, 56, 55],  -- 135
  [92, 120, 56, 56],  -- 136
  [92, 120, 56, 57],  -- 137
  [92, 120, 56, 97],  -- 138
  [92, 120, 56, 98],  -- 139
  [92, 120, 56, 99],  -- 140
  [92, 120, 56, 100],  -- 141
  [92, 120, 56, 101],  -- 142
  [92, 120, 56, 102],  -- 143
  [92, 120, 57, 48],  -- 144
  [92, 120, 57, 49],  -- 145
  [92, 120, 57, 50],  -- 146
  [92, 120, 57, 51],  -- 147
  [92, 120, 57, 52],  -- 148
  [92, 120, 57, 53],  -- 149
  [92, 120, 57, 54],  -- 150
  [92, 120, 57, 55],  -- 151
  [92, 120, 57, 56],  -- 152
  [92, 120, 57, 57],  -- 153
  [92, 120, 57, 97],  -- 154
  [92, 120, 57, 98],  -- 155
  [92, 120, 57, 99],  -- 156
  [92, 120, 57, 100],  -- 157
  [92, 120, 57, 101],  -- 158
  [92, 120, 57, 102],  -- 159
  [92, 120, 97, 48],  -- 160
  [92, 120, 97, 49],  -- 161
  [92, 120, 97, 50],  -- 162
  [92, 120, 97, 51],  -- 163
  [92, 120, 97, 52],  -- 164
  [92, 120, 97, 53],  -- 165
  [92, 120, 97, 54],  -- 166
  [92, 120, 97, 55],  -- 167
  [92, 120, 97, 56],  -- 168
  [92, 120, 97, 57],  -- 169
  [92, 120, 97, 97],  -- 170
  [92, 120, 97, 98],  -- 171
  [92, 120, 97, 99],  -- 172
  [92, 120, 97, 100],  -- 173
  [92, 120, 97, 101],  -- 174
  [92, 120, 97, 102],  -- 175
  [92, 120, 98, 48],  -- 176
  [92, 120, 98, 49],  -- 177
  [92, 120, 98, 50],  -- 178
  [92, 120, 98, 51],  -- 179
  [92, 120, 98, 52],  -- 180
  [92, 120, 98, 53],  -- 181
  [92, 120, 98, 54],  -- 182
  [92, 120, 98, 55],  -- 183
  [92, 120, 98, 56],  -- 184
  [92, 120, 98, 57],  -- 185
  [92, 120, 98, 97],  -- 186
  [92, 120, 98, 98],  -- 187
  [92, 120, 98, 99],  -- 188
  [92, 120, 98, 100],  -- 189
  [92, 120, 98, 101],  -- 190
  [92, 120, 98, 102],  -- 191
  [92, 120, 99, 48],  -- 192
  [92, 120, 99, 49],  -- 193
  [92, 120, 99, 50],  -- 194
  [92, 120, 99, 51],  -- 195
  [92, 120, 99, 52],  -- 196
  [92, 120, 99, 53],  -- 197
  [92, 120, 99, 54],  -- 198
  [92, 120, 99, 55],  -- 199
  [92, 120, 99, 56],  -- 200
  [92, 120, 99, 57],  -- 201
  [92, 120, 99, 97],  -- 202
  [92, 120, 99, 98],  -- 203
  [92, 120, 99, 99],  -- 204
  [92, 120, 99, 100],  -- 205
  [92, 120, 99, 101],  -- 206
  [92, 120, 99, 102],  -- 207
  [92, 120, 100, 48],  -- 208
  [92, 120, 100, 49],  -- 209
  [92, 120, 100, 50],  -- 210
  [92, 120, 100, 51],  -- 211
  [92, 120, 100, 52],  -- 212
  [92, 120, 100, 53],  -- 213
  [92, 120, 100, 54],  -- 214
  [92, 120, 100, 55],  -- 215
  [92, 120, 100, 56],  -- 216
  [92, 120, 100, 57],  -- 217
  [92, 120, 100, 97],  -- 218
  [92, 120, 100, 98],  -- 219
  [92, 120, 100, 99],  -- 220
  [92, 120, 100, 100],  -- 221
  [92, 120, 100, 101],  -- 222
  [92, 120, 100, 102],  -- 223
  [92, 120, 101, 48],  -- 224
  [92, 120, 101, 49],  -- 225
  [92, 120, 101, 50],  -- 226
  [92, 120, 101, 51],  -- 227
  [92, 120, 101, 52],  -- 228
  [92, 120, 101, 53],  -- 229
  [92, 120, 101, 54],  -- 230
  [92, 120, 101, 55],  -- 231
  [92, 120, 101, 56],  -- 232
  [92, 120, 101, 57],  -- 233
  [92, 120, 101, 97],  -- 234
  [92, 120, 101, 98],  -- 235
  [92, 120, 101, 99],  -- 236
  [92, 120, 101, 100],  -- 237
  [92, 120, 101, 101],  -- 238
  [92, 120, 101, 102],  -- 239
  [92, 120, 102, 48],  -- 240
  [92, 120, 102, 49],  -- 241
  [92, 120, 102, 50],  -- 242
  [92, 120, 102, 51],  -- 243
  [92, 120, 102, 52],  -- 244
  [92, 120, 102, 53],  -- 245
  [92, 120, 102, 54],  -- 246
  [92, 120, 102, 55],  -- 247
  [92, 120, 102, 56],  -- 248
  [92, 120, 102, 57],  -- 249
  [92, 120, 102, 97],  -- 250
  [92, 120, 102, 98],  -- 251
  [92, 120, 102, 99],  -- 252
  [92, 120, 102, 100],  -- 253
  [92, 120, 102, 101],  -- 254
  [92, 120, 102, 102]  -- 255
]

/-- Escape of one byte: `STRING_CHARACTERS[c as usize]` from `write_string`. -/
def escByte (c : Nat) : List Nat := (STRING_CHARACTERS.get? c).getD []

/-- `write_string` from `notation.rs`: escape each byte through the table. -/
def write_string (s : ByteStr) : ByteStr := s.flatMap escByte

/-! ## Value model operations (`lib.rs`) -/

/-- Association-list lookup: Rust `HashMap::get`. -/
def lookupAssoc (m : List (ByteStr × Llsd)) (k : ByteStr) : Option Llsd :=
  match m with
  | [] => none
  | (k0, v0) :: rest => if k0 = k then some v0 else lookupAssoc rest k

/-- Whether the map contains a key: Rust `HashMap::contains_key`. -/
def containsKey (m : List (ByteStr × Llsd)) (k : ByteStr) : Bool :=
  (lookupAssoc m k).isSome

/-- Association-list insert with overwrite: Rust `HashMap::insert`
(last write wins; a fresh key is appended). -/
def insertAssoc (m : List (ByteStr × Llsd)) (k : ByteStr) (v : Llsd) :
    List (ByteStr × Llsd) :=
  match m with
  | [] => [(k, v)]
  | (k0, v0) :: rest =>
    if k0 = k then (k0, v) :: rest else (k0, v0) :: insertAssoc rest k v

/-- Rust `str::parse::<usize>` on bytes: an optional leading plus sign,
then one or more ASCII digits, value below 2^64 (64-bit usize). -/
def parseUsize (s : ByteStr) : Option Nat :=
  let body := match s with
    | 43 :: rest => rest
    | _ => s
  if body = [] then none
  else if body.all (fun c => 48 ≤ c ∧ c ≤ 57) then
    let n := body.foldl (fun acc c => acc * 10 + (c - 48)) 0
    if n < 2 ^ 64 then some n else none
  else none

/-- Split a byte string at every occurrence of the byte `b`:
Rust `str::split(char)` for an ASCII separator. -/
def splitByte (b : Nat) : ByteStr → List ByteStr
  | [] => [[]]
  | c :: rest =>
    match splitByte b rest with
    | [] => if c = b then [[], []] else [[c]]
    | h :: t => if c = b then [] :: h :: t else (c :: h) :: t

/-- Leftmost, non-overlapping substring replacement:
Rust `str::replace` for ASCII patterns.  The fuel argument only forces
structural termination; each step consumes at least one byte, and the
wrapper supplies the input length. -/
def replaceAllGo (pat repl : ByteStr) : Nat → ByteStr → ByteStr
  | 0, s => s
  | fuel + 1, s =>
    match s with
    | [] => []
    | c :: rest =>
      if pat ≠ [] ∧ pat.isPrefixOf (c :: rest) then
        repl ++ replaceAllGo pat repl fuel ((c :: rest).drop pat.length)
      else
        c :: replaceAllGo pat repl fuel rest

/-- Rust `str::replace` for ASCII patterns. -/
def replaceAll (s pat repl : ByteStr) : ByteStr :=
  replaceAllGo pat repl s.length s

/-- Pointer-segment unescape from `Llsd::pointer`: replace `~1` with `/`,
then `~0` with `~` (bytes 126 48/49, 47, 126). -/
def unescapeSeg (s : ByteStr) : ByteStr :=
  replaceAll (replaceAll s [126, 49] [47]) [126, 48] [126]

/-- One resolution step of `Llsd::pointer`: the closure given to
`try_fold` (numeric index into an Array, key into a Map, otherwise no
result). -/
def pointerStep (target : Llsd) (token : ByteStr) : Option Llsd :=
  match target with
  | .array xs => (parseUsize token).bind fun i => xs.get? i
  | .map m => lookupAssoc m token
  | _ => none

/-- `Llsd::pointer` from `lib.rs`: empty path resolves to self; a
non-empty path must start with the slash byte; the remaining segments are
unescaped and folded through `pointerStep`. -/
def pointer (v : Llsd) (p : ByteStr) : Option Llsd :=
  if p = [] then some v
  else if p.head? ≠ some 47 then none
  else
    ((splitByte 47 p).drop 1 |>.map unescapeSeg).foldlM pointerStep v

/-! ## Convenience indexing (`lib.rs`, trait `Index` and the `ops::Index` /
`ops::IndexMut` impls) -/

/-- An index capability value: `usize` or a string key. -/
inductive Idx where
  | usize (i : Nat)
  | str (k : ByteStr)
  deriving DecidableEq, Repr

/-- `Index::index_into` (read-only lookup; both the `usize` and the `str`
impl). -/
def indexInto (i : Idx) (v : Llsd) : Option Llsd :=
  match i, v with
  | .usize i, .array xs => xs.get? i
  | .str k, .map m => lookupAssoc m k
  | _, _ => none

/-- The read-only `ops::Index` operator on `Llsd`:
`index_into(self).unwrap_or(&NULL)` where `NULL` is `Undefined`.  It is a
total function of the receiver: there is no panic path and the receiver
is not modified. -/
def opsIndex (v : Llsd) (i : Idx) : Llsd :=
  (indexInto i v).getD .undefined

/-- `Index::index_or_insert` (the `ops::IndexMut` path).  The result is
the updated receiver; `none` models the panic.  For a `usize` index the
receiver must already be an Array holding the position; for a string key
an Undefined receiver is first replaced by an empty Map
(auto-vivification), then `entry(key).or_insert(Undefined)` runs; any
other receiver shape panics. -/
def indexOrInsert (i : Idx) (v : Llsd) : Option Llsd :=
  match i, v with
  | .usize i, .array xs => if i < xs.length then some (.array xs) else none
  | .usize _, _ => none
  | .str k, .undefined => some (.map [(k, .undefined)])
  | .str k, .map m =>
    some (.map (if containsKey m k then m else m ++ [(k, .undefined)]))
  | .str _, _ => none

/-! ## Numeric coercions (`crates/llsd-rs/src/lib.rs`, macro
`impl_from_int`, instantiated at each native integer type; the model
instantiates the macro body at `u32` and at `i64`). -/

/-- The typed conversion errors: `anyhow::Error::msg("Invalid integer")`
and `anyhow::Error::msg("Expected LLSD Integer")`. -/
inductive ConvErr where
  | invalidInteger
  | expectedInteger
  deriving DecidableEq, Repr

/-- Rust `str::parse::<u32>` on bytes: optional leading plus sign, one or
more digits, value within `u32`. -/
def parseU32 (s : ByteStr) : Option Nat :=
  let body := match s with
    | 43 :: rest => rest
    | _ => s
  if body = [] then none
  else if body.all (fun c => 48 ≤ c ∧ c ≤ 57) then
    let n := body.foldl (fun acc c => acc * 10 + (c - 48)) 0
    if n < 2 ^ 32 then some n else none
  else none

/-- Rust `str::parse::<i64>` on bytes: optional sign, one or more digits,
value within `i64`. -/
def parseI64 (s : ByteStr) : Option Int :=
  let (sign, body) : Int × ByteStr := match s with
    | 43 :: rest => (1, rest)
    | 45 :: rest => (-1, rest)
    | _ => (1, s)
  if body = [] then none
  else if body.all (fun c => 48 ≤ c ∧ c ≤ 57) then
    let n : Int := body.foldl (fun acc c => acc * 10 + ((c : Int) - 48)) 0
    let v := sign * n
    if -(2 ^ 63) ≤ v ∧ v ≤ 2 ^ 63 - 1 then some v else none
  else none

/-- Truncation toward zero of a rational, as an integer (`f64::trunc`,
which is exact on the denotation).  Because the denominator is positive,
truncating division of the numerator by the denominator is exactly
truncation toward zero. -/
def ratTruncToInt (q : ℚ) : Int := q.num.tdiv q.den

/-- Saturating Rust float-to-unsigned cast `as u32` applied to the exact
f64 denotation: NaN casts to 0, values are truncated toward zero and
clamped to the `u32` range. -/
def f64AsU32 (x : F64) : Nat :=
  match x with
  | .nan => 0
  | .neginf => 0
  | .inf => 2 ^ 32 - 1
  | .finite q => (max 0 (min (ratTruncToInt q) (2 ^ 32 - 1))).toNat

/-- Saturating Rust float-to-signed cast `as i64` on the denotation. -/
def f64AsI64 (x : F64) : Int :=
  match x with
  | .nan => 0
  | .neginf => -(2 ^ 63)
  | .inf => 2 ^ 63 - 1
  | .finite q => max (-(2 ^ 63)) (min (ratTruncToInt q) (2 ^ 63 - 1))

/-- `TryFrom<&Llsd> for u32` (macro `impl_from_int` at `u32`): a wrapping
`as` cast from Integer, a saturating cast from Real, 0/1 from Boolean, a
`str::parse` from String with the typed "Invalid integer" error, and a
typed "Expected LLSD Integer" error for every other variant. -/
def tryFromLlsdU32 (v : Llsd) : Except ConvErr Nat :=
  match v with
  | .integer n => .ok (n % 2 ^ 32).toNat
  | .real x => .ok (f64AsU32 x)
  | .boolean b => .ok (if b then 1 else 0)
  | .string s =>
    match parseU32 s with
    | some n => .ok n
    | none => .error .invalidInteger
  | _ => .error .expectedInteger

/-- `TryFrom<&Llsd> for i64` (macro `impl_from_int` at `i64`). -/
def tryFromLlsdI64 (v : Llsd) : Except ConvErr Int :=
  match v with
  | .integer n => .ok n
  | .real x => .ok (f64AsI64 x)
  | .boolean b => .ok (if b then 1 else 0)
  | .string s =>
    match parseI64 s with
    | some n => .ok n
    | none => .error .invalidInteger
  | _ => .error .expectedInteger

/-! ## External collaborators

The f64 / uuid / chrono / url text formatters and parsers live in outside
crates; the embedding abstracts them as a record of functions.  Every
theorem whose code path cannot reach them quantifies over all records,
which also proves the path never consults them. -/

/-- External text formatters and parsers (f64 `Display`/`FromStr`, uuid,
chrono RFC 3339, url). -/
structure Externals where
  displayF64 : F64 → ByteStr
  displayUuid : Nat → ByteStr
  displayDate : ChronoDate → ByteStr
  parseF64Str : ByteStr → Option F64
  parseUuidStr : ByteStr → Option Nat
  parseRfc3339 : ByteStr → Option ChronoDate
  uriParse : ByteStr → Uri

/-! ## Notation writer (`notation.rs`) -/

/-- `FormatterContext` from `notation.rs`. -/
structure FormatterContext where
  indent : ByteStr
  pretty : Bool
  boolean : Bool
  hex : Bool
  level : Nat
  deriving DecidableEq, Repr

/-- `FormatterContext::new`: two-space indent, all flags off, level 0. -/
def FormatterContext.new : FormatterContext :=
  { indent := [32, 32], pretty := false, boolean := false, hex := false,
    level := 0 }

/-- `FormatterContext::indent`: the per-level indentation and the newline
byte string (both empty when pretty printing is off). -/
def FormatterContext.indentOf (c : FormatterContext) : ByteStr × ByteStr :=
  if c.pretty then ((List.replicate c.level c.indent).flatten, [10])
  else ([], [])

/-- `FormatterContext::increment`. -/
def FormatterContext.increment (c : FormatterContext) : FormatterContext :=
  { c with level := c.level + 1 }

/-- Decimal digits of a natural number, most significant first
(Rust `{}` formatting of an unsigned value).  The fuel argument only
forces structural termination; `natDecimal` supplies enough. -/
def natDecimalGo : Nat → Nat → ByteStr
  | 0, _ => []
  | fuel + 1, n =>
    if n < 10 then [48 + n]
    else natDecimalGo fuel (n / 10) ++ [48 + n % 10]

/-- Rust `{}` formatting of an unsigned value. -/
def natDecimal (n : Nat) : ByteStr := natDecimalGo (n + 1) n

/-- Rust `{}` formatting of an integer: optional minus sign, then the
decimal digits of the absolute value. -/
def intDecimal (n : Int) : ByteStr :=
  if n < 0 then 45 :: natDecimal n.natAbs else natDecimal n.natAbs

/-- Uppercase hex digit of a value below 16 (Rust `{:02X}`). -/
def hexDigitUpper (n : Nat) : Nat :=
  if n < 10 then 48 + n else 65 + (n - 10)

/-- Rust `{:02X}` of one byte. -/
def hexPairUpper (b : Nat) : ByteStr :=
  [hexDigitUpper (b / 16), hexDigitUpper (b % 16)]

/-- `write_inner` from `notation.rs`: the notation encoder.  Containers
recurse with an incremented context; map entries and array elements are
separated by commas exactly as the `comma` flag in the source places
them. -/
def writeInner (ext : Externals) (ctx : FormatterContext) : Llsd → ByteStr
  | .map m =>
    let (ind, nl) := ctx.indentOf
    let ctx1 := ctx.increment
    let innerInd := ctx1.indentOf.1
    let entries := m.attach.map fun ⟨(k, e), h⟩ =>
      nl ++ innerInd ++ [39] ++ write_string k ++ [39, 58] ++
        writeInner ext ctx1 e
    ind ++ [123] ++ List.intercalate [44] entries ++ nl ++ ind ++ [125]
  | .array xs =>
    let (ind, nl) := ctx.indentOf
    let ctx1 := ctx.increment
    let elems := xs.attach.map fun ⟨e, h⟩ => writeInner ext ctx1 e
    nl ++ ind ++ [91] ++ List.intercalate [44] elems ++ [93]
  | .undefined => [33]
  | .boolean b =>
    if ctx.boolean then (if b then [49] else [48])
    else (if b then [116, 114, 117, 101] else [102, 97, 108, 115, 101])
  | .integer n => 105 :: intDecimal n
  | .real x => 114 :: ext.displayF64 x
  | .uuid u => 117 :: ext.displayUuid u
  | .string s => [39] ++ write_string s ++ [39]
  | .date d => [100, 34] ++ ext.displayDate d ++ [34]
  | .uri u => [108, 34] ++ write_string u.asStr ++ [34]
  | .binary v =>
    (if ctx.hex then [98, 49, 54, 34] ++ v.flatMap hexPairUpper
     else [98, 40] ++ natDecimal v.length ++ [41, 34] ++ v) ++ [34]
termination_by v => sizeOf v
decreasing_by
  · have hlt := List.sizeOf_lt_of_mem h
    simp only [Llsd.map.sizeOf_spec]
    simp only [Prod.mk.sizeOf_spec] at hlt
    omega
  · have hlt := List.sizeOf_lt_of_mem h
    simp only [Llsd.array.sizeOf_spec]
    omega

/-- `to_vec` from `notation.rs` (the writer never fails in the model:
the underlying sink is an in-memory buffer). -/
def notationToVec (ext : Externals) (v : Llsd) (ctx : FormatterContext) :
    ByteStr :=
  writeInner ext ctx v

/-! ## Notation parser (`notation.rs`)

The `Stream` cursor is modelled by the list of not-yet-consumed bytes;
each primitive returns its result together with the remaining suffix.
Error positions (byte offset, line, column) are not modelled: every
claim below compares error kinds only, so `ParseErrorKind` is embedded
with its payloads dropped where the payload is a formatted message. -/

/-- `ParseErrorKind` from `notation.rs` (the `Expected` message text and
the wrapped external error values are not modelled, only the kind). -/
inductive PErr where
  | maxDepth
  | eof
  | invalidChar (b : Nat)
  | expected
  | ioErr
  | utf8
  | uuidErr
  | chronoErr
  | intErr
  | floatErr
  deriving DecidableEq, Repr

/-- `Stream::skip_ws`: drop ASCII whitespace, then consume and return the
first non-whitespace byte. -/
def skipWs : ByteStr → Option Nat × ByteStr
  | [] => (none, [])
  | c :: rest =>
    if c = 32 ∨ c = 9 ∨ c = 13 ∨ c = 10 then skipWs rest else (some c, rest)

/-- `Stream::expect`: consume one byte that must lie in the expected set. -/
def expectSet (set : List Nat) : ByteStr → Except PErr ByteStr
  | [] => .error .eof
  | c :: rest => if c ∈ set then .ok rest else .error .expected

/-- Value of an ASCII hex digit, as accepted by `Stream::hex`. -/
def hexVal (c : Nat) : Option Nat :=
  if 48 ≤ c ∧ c ≤ 57 then some (c - 48)
  else if 97 ≤ c ∧ c ≤ 102 then some (c - 97 + 10)
  else if 65 ≤ c ∧ c ≤ 70 then some (c - 65 + 10)
  else none

/-- Whether a byte starts no valid UTF-8 sequence here: helper for
`String::from_utf8` (a continuation byte is 0x80 to 0xBF). -/
def utf8Cont (c : Nat) : Bool := 128 ≤ c ∧ c ≤ 191

/-- `String::from_utf8` validity on a byte list (UTF-8 well-formedness,
surrogates and overlong encodings rejected). -/
def utf8Valid : ByteStr → Bool
  | [] => true
  | c :: rest =>
    if c < 128 then utf8Valid rest
    else if 194 ≤ c ∧ c ≤ 223 then
      match rest with
      | c1 :: r => utf8Cont c1 && utf8Valid r
      | [] => false
    else if 224 ≤ c ∧ c ≤ 239 then
      match rest with
      | c1 :: c2 :: r =>
        (if c = 224 then decide (160 ≤ c1 ∧ c1 ≤ 191)
         else if c = 237 then decide (128 ≤ c1 ∧ c1 ≤ 159)
         else utf8Cont c1) && utf8Cont c2 && utf8Valid r
      | _ => false
    else if 240 ≤ c ∧ c ≤ 244 then
      match rest with
      | c1 :: c2 :: c3 :: r =>
        (if c = 240 then decide (144 ≤ c1 ∧ c1 ≤ 191)
         else if c = 244 then decide (128 ≤ c1 ∧ c1 ≤ 143)
         else utf8Cont c1) && utf8Cont c2 && utf8Cont c3 && utf8Valid r
      | _ => false
    else false

/-- `Stream::parse_utf8`: keep the bytes if they form valid UTF-8,
otherwise a Utf8 error. -/
def parseUtf8 (buf : ByteStr) : Except PErr ByteStr :=
  if utf8Valid buf then .ok buf else .error .utf8

/-- The byte pushed for a single-character escape in `Stream::unescape`
(an unrecognized escape pushes the character itself). -/
def escCharByte (e : Nat) : Nat :=
  if e = 97 then 7
  else if e = 98 then 8
  else if e = 102 then 12
  else if e = 110 then 10
  else if e = 114 then 13
  else if e = 116 then 9
  else if e = 118 then 11
  else e

/-- `Stream::unescape` without the final UTF-8 step: collect bytes until
the delimiter, decoding backslash escapes (`\xHH` reads two hex digits
through `Stream::hex`, whose end-of-input error is `InvalidChar 0`). -/
def unescapeRaw (delim : Nat) : ByteStr → Except PErr (ByteStr × ByteStr)
  | [] => .error .eof
  | c :: rest =>
    if c = delim then .ok ([], rest)
    else if c = 92 then
      match rest with
      | [] => .error .eof
      | e :: rest2 =>
        if e = 120 then
          match rest2 with
          | h1 :: h2 :: rest3 =>
            match hexVal h1 with
            | none => .error (.invalidChar h1)
            | some hv =>
              match hexVal h2 with
              | none => .error (.invalidChar h2)
              | some lv =>
                (unescapeRaw delim rest3).map fun (bs, r) =>
                  ((hv * 16 + lv) % 256 :: bs, r)
          | [h1] =>
            match hexVal h1 with
            | none => .error (.invalidChar h1)
            | some _ => .error (.invalidChar 0)
          | [] => .error (.invalidChar 0)
        else
          (unescapeRaw delim rest2).map fun (bs, r) => (escCharByte e :: bs, r)
    else
      (unescapeRaw delim rest).map fun (bs, r) => (c :: bs, r)

/-- `Stream::unescape`: unescape until the delimiter, then validate UTF-8. -/
def unescape (delim : Nat) (s : ByteStr) : Except PErr (ByteStr × ByteStr) :=
  match unescapeRaw delim s with
  | .error e => .error e
  | .ok (bs, r) =>
    match parseUtf8 bs with
    | .error e => .error e
    | .ok bs => .ok (bs, r)

/-- `Stream::read_sized`: a parenthesized decimal size, then a quote, then
exactly that many raw bytes, then a quote.  A short read is the wrapped
Io error of `read_exact`. -/
def readSized (s : ByteStr) : Except PErr (ByteStr × ByteStr) :=
  match expectSet [40] s with
  | .error e => .error e
  | .ok s1 =>
    let buf := s1.takeWhile (fun c => c ≠ 41)
    let s2 := s1.dropWhile (fun c => c ≠ 41)
    match expectSet [41] s2 with
    | .error e => .error e
    | .ok s3 =>
      match parseUtf8 buf with
      | .error e => .error e
      | .ok buf =>
        match parseUsize buf with
        | none => .error .intErr
        | some size =>
          match expectSet [34, 39] s3 with
          | .error e => .error e
          | .ok s4 =>
            if size ≤ s4.length then
              match expectSet [34, 39] (s4.drop size) with
              | .error e => .error e
              | .ok s5 => .ok (s4.take size, s5)
            else .error .ioErr

/-- The `b16` hex-pair loop of the binary production: hex pairs until a
closing double quote; reaching end of input leaves the loop with the
bytes collected so far (as the `while let` in the source does). -/
def b16Loop : ByteStr → Except PErr (ByteStr × ByteStr)
  | [] => .ok ([], [])
  | c :: rest =>
    match hexVal c with
    | some hv =>
      match rest with
      | [] => .error (.invalidChar 0)
      | h :: rest2 =>
        match hexVal h with
        | none => .error (.invalidChar h)
        | some lv =>
          (b16Loop rest2).map fun (bs, r) => ((hv * 16 + lv) % 256 :: bs, r)
    | none =>
      if c = 34 then .ok ([], rest) else .error .expected

/-- Rust `str::parse::<i32>` on bytes: optional sign, one or more digits,
value within `i32`; anything else is a `ParseIntError`. -/
def parseI32 (s : ByteStr) : Option Int :=
  let (sign, body) : Int × ByteStr := match s with
    | 43 :: rest => (1, rest)
    | 45 :: rest => (-1, rest)
    | _ => (1, s)
  if body = [] then none
  else if body.all (fun c => 48 ≤ c ∧ c ≤ 57) then
    let n : Int := body.foldl (fun acc c => acc * 10 + ((c : Int) - 48)) 0
    let v := sign * n
    if -(2 ^ 31) ≤ v ∧ v ≤ 2 ^ 31 - 1 then some v else none
  else none

/-- The scalar productions of `from_reader_char` (every branch that does
not recurse into a child value), dispatching on the already-consumed
first byte. -/
def parseScalar (ext : Externals) (c : Nat) (s : ByteStr) :
    Except PErr (Llsd × ByteStr) :=
  if c = 33 then .ok (.undefined, s)
  else if c = 48 then .ok (.boolean false, s)
  else if c = 49 then .ok (.boolean true, s)
  else if c = 105 ∨ c = 73 then
    -- Integer: peek for an explicit sign, then take digits and dashes,
    -- parse as i32, and multiply by the sign.
    let (sign, s1) : Int × ByteStr := match s.head? with
      | some 45 => (-1, s.tail)
      | some 43 => (1, s.tail)
      | _ => (1, s)
    let buf := s1.takeWhile (fun b => (48 ≤ b ∧ b ≤ 57) ∨ b = 45)
    let s2 := s1.dropWhile (fun b => (48 ≤ b ∧ b ≤ 57) ∨ b = 45)
    match parseUtf8 buf with
    | .error e => .error e
    | .ok buf =>
      match parseI32 buf with
      | none => .error .intErr
      | some i => .ok (.integer (i * sign), s2)
  else if c = 114 ∨ c = 82 then
    let pred := fun b =>
      b = 45 ∨ b = 46 ∨ (48 ≤ b ∧ b ≤ 57) ∨ b = 101 ∨ b = 69 ∨ b = 105 ∨
      b = 110 ∨ b = 102 ∨ b = 73 ∨ b = 78 ∨ b = 70 ∨ b = 97 ∨ b = 65
    let buf := s.takeWhile pred
    let s1 := s.dropWhile pred
    match parseUtf8 buf with
    | .error e => .error e
    | .ok buf =>
      match ext.parseF64Str buf with
      | none => .error .floatErr
      | some f => .ok (.real f, s1)
  else if c = 117 ∨ c = 85 then
    let pred := fun b =>
      (48 ≤ b ∧ b ≤ 57) ∨ (97 ≤ b ∧ b ≤ 102) ∨ (65 ≤ b ∧ b ≤ 70) ∨ b = 45
    let buf := s.takeWhile pred
    let s1 := s.dropWhile pred
    match parseUtf8 buf with
    | .error e => .error e
    | .ok buf =>
      match ext.parseUuidStr buf with
      | none => .error .uuidErr
      | some u => .ok (.uuid u, s1)
  else if c = 116 ∨ c = 84 then
    match expectSet [114, 82] s with
    | .error e => .error e
    | .ok s1 =>
      match expectSet [117, 85] s1 with
      | .error e => .error e
      | .ok s2 =>
        match expectSet [101, 69] s2 with
        | .error e => .error e
        | .ok s3 => .ok (.boolean true, s3)
  else if c = 102 ∨ c = 70 then
    match expectSet [97, 65] s with
    | .error e => .error e
    | .ok s1 =>
      match expectSet [108, 76] s1 with
      | .error e => .error e
      | .ok s2 =>
        match expectSet [115, 83] s2 with
        | .error e => .error e
        | .ok s3 =>
          match expectSet [101, 69] s3 with
          | .error e => .error e
          | .ok s4 => .ok (.boolean false, s4)
  else if c = 39 then
    (unescape 39 s).map fun (bs, r) => (.string bs, r)
  else if c = 34 then
    (unescape 34 s).map fun (bs, r) => (.string bs, r)
  else if c = 115 then
    match readSized s with
    | .error e => .error e
    | .ok (buf, r) =>
      match parseUtf8 buf with
      | .error e => .error e
      | .ok buf => .ok (.string buf, r)
  else if c = 108 ∨ c = 76 then
    match expectSet [34] s with
    | .error e => .error e
    | .ok s1 =>
      (unescape 34 s1).map fun (bs, r) => (.uri (ext.uriParse bs), r)
  else if c = 100 ∨ c = 68 then
    match expectSet [34] s with
    | .error e => .error e
    | .ok s1 =>
      match unescape 34 s1 with
      | .error e => .error e
      | .ok (bs, r) =>
        match ext.parseRfc3339 bs with
        | none => .error .chronoErr
        | some d => .ok (.date d, r)
  else if c = 98 ∨ c = 66 then
    match s.head? with
    | none => .error .eof
    | some 40 => (readSized s).map fun (bs, r) => (.binary bs, r)
    | some 49 =>
      match expectSet [54] s.tail with
      | .error e => .error e
      | .ok s1 =>
        match expectSet [34] s1 with
        | .error e => .error e
        | .ok s2 => (b16Loop s2).map fun (bs, r) => (.binary bs, r)
    | some _ => .error .expected
  else .error .expected

/-- The pending-call states of the recursive-descent notation parser:
a value production dispatched on its first byte, the map-entry loop, or
the array-element loop (with the container built so far). -/
inductive PCall where
  | val (c : Nat) (maxDepth : Nat) (s : ByteStr)
  | inMap (maxDepth : Nat) (s : ByteStr) (acc : List (ByteStr × Llsd))
  | inArr (maxDepth : Nat) (s : ByteStr) (acc : List Llsd)

/-- `from_reader_char` from `notation.rs` together with its two container
loops, in one structurally recursive function: check the depth budget,
then dispatch on the already-consumed first byte; the container
productions loop and recurse into child values with `max_depth + 1`,
exactly as the source does.  The `fuel` argument is only a modelling
device forcing termination; `none` marks fuel exhaustion, which never
happens with the fuel chosen by `notationFromBytes`. -/
def parseStep (ext : Externals) : Nat → PCall → Option (Except PErr (Llsd × ByteStr))
  | 0, _ => none
  | fuel + 1, .val c maxDepth s =>
    if maxDepth = 0 then some (.error .maxDepth)
    else if c = 123 then parseStep ext fuel (.inMap maxDepth s [])
    else if c = 91 then parseStep ext fuel (.inArr maxDepth s [])
    else some (parseScalar ext c s)
  | fuel + 1, .inMap maxDepth s acc =>
    match skipWs s with
    | (none, _) => some (.error .eof)
    | (some 125, s1) => some (.ok (.map acc, s1))
    | (some 44, s1) => parseStep ext fuel (.inMap maxDepth s1 acc)
    | (some q, s1) =>
      if q = 39 ∨ q = 34 ∨ q = 115 then
        let keyRes : Except PErr (ByteStr × ByteStr) :=
          if q = 115 then
            match readSized s1 with
            | .error e => .error e
            | .ok (buf, r) =>
              match parseUtf8 buf with
              | .error e => .error e
              | .ok buf => .ok (buf, r)
          else unescape q s1
        match keyRes with
        | .error e => some (.error e)
        | .ok (k, s2) =>
          match skipWs s2 with
          | (none, _) => some (.error .eof)
          | (some 58, s3) =>
            match skipWs s3 with
            | (none, _) => some (.error .eof)
            | (some vc, s4) =>
              match parseStep ext fuel (.val vc (maxDepth + 1) s4) with
              | none => none
              | some (.error e) => some (.error e)
              | some (.ok (v, s5)) =>
                parseStep ext fuel (.inMap maxDepth s5 (insertAssoc acc k v))
          | (some _, _) => some (.error .expected)
      else some (.error .expected)
  | fuel + 1, .inArr maxDepth s acc =>
    match skipWs s with
    | (none, _) => some (.error .eof)
    | (some 93, s1) => some (.ok (.array acc, s1))
    | (some 44, s1) => parseStep ext fuel (.inArr maxDepth s1 acc)
    | (some c, s1) =>
      match parseStep ext fuel (.val c (maxDepth + 1) s1) with
      | none => none
      | some (.error e) => some (.error e)
      | some (.ok (v, s2)) => parseStep ext fuel (.inArr maxDepth s2 (acc ++ [v]))

/-- `from_reader_char` from `notation.rs` (entry point of one value
production). -/
def from_reader_char (ext : Externals) (fuel : Nat) (c : Nat)
    (maxDepth : Nat) (s : ByteStr) : Option (Except PErr (Llsd × ByteStr)) :=
  parseStep ext fuel (.val c maxDepth s)

/-- `from_reader` / `from_bytes` from `notation.rs`: skip whitespace; an
empty input yields Undefined; otherwise run `from_reader_char` on the
first byte.  The fuel is twice the input length plus two, which no run
ever exhausts (each fuel step consumes input or closes a production). -/
def notationFromBytes (ext : Externals) (input : ByteStr) (maxDepth : Nat) :
    Option (Except PErr Llsd) :=
  match skipWs input with
  | (none, _) => some (.ok .undefined)
  | (some c, rest) =>
    (from_reader_char ext (2 * input.length + 2) c maxDepth rest).map
      (·.map Prod.fst)

/-! ## Binary codec (`crates/llsd-rs/src/binary.rs`)

The decoder is embedded byte-exactly.  The one f64 value the claims
evaluate is written by the Date branch of `write_inner`; the model
computes the exact rational the source expression denotes
(`v.timestamp() as f64 + v.timestamp_subsec_nanos() as f64 / 1e9`), and
every theorem below evaluates it only where the f64 arithmetic is exact. -/

/-- Big-endian bytes to a natural number (`from_be_bytes`). -/
def beBytesToNat (bs : ByteStr) : Nat := bs.foldl (fun acc b => acc * 256 + b) 0

/-- Little-endian bytes to a natural number (`from_le_bytes`). -/
def leBytesToNat (bs : ByteStr) : Nat := bs.foldr (fun b acc => acc * 256 + b) 0

/-- Two-complement reading of a 32-bit word (`i32::from_be_bytes`). -/
def i32OfNat (n : Nat) : Int :=
  if n < 2 ^ 31 then (n : Int) else (n : Int) - 2 ^ 32

/-- Rust `i32 as usize` (sign extension to 64 bits). -/
def i32AsUsize (v : Int) : Nat := (v % (2 ^ 64 : Int)).toNat

/-- Powers of two by structural recursion (the elaborator refuses to
fold large `2 ^ k` literals, so the scale factors of the IEEE encoding
are spelled with this function; `pow2_eq` ties it to `2 ^ k`). -/
def pow2 : Nat → Nat
  | 0 => 1
  | n + 1 => 2 * pow2 n

/-- The exact denotation of an IEEE-754 double bit pattern
(sign, 11-bit exponent, 52-bit mantissa; subnormals and the three
non-finite classes included). -/
def f64FromBits (n : Nat) : F64 :=
  let sign : Nat := n / 2 ^ 63 % 2
  let e : Nat := n / 2 ^ 52 % 2 ^ 11
  let man : Nat := n % 2 ^ 52
  if e = 2047 then
    if man = 0 then (if sign = 1 then .neginf else .inf) else .nan
  else
    let mag : ℚ :=
      if e = 0 then mkRat (man : Int) (pow2 1074)
      else mkRat (((2 ^ 52 + man) * pow2 e : Nat) : Int) (pow2 1075)
    .finite (if sign = 1 then -mag else mag)

/-- Rust saturating cast `as i64` composed with `f64::trunc`:
`real.trunc() as i64` on the denotation (NaN casts to 0, infinities and
out-of-range values clamp to the i64 bounds). -/
def truncAsI64 (x : F64) : Int :=
  match x with
  | .nan => 0
  | .inf => 2 ^ 63 - 1
  | .neginf => -(2 ^ 63)
  | .finite q => max (-(2 ^ 63)) (min (ratTruncToInt q) (2 ^ 63 - 1))

/-- `f64::fract` on the denotation (`self - self.trunc()`; exact for
finite values, NaN for the non-finite classes). -/
def f64Fract (x : F64) : F64 :=
  match x with
  | .finite q => .finite (mkRat (q.num - ratTruncToInt q * q.den) q.den)
  | _ => .nan

/-- Multiplication by `1_000_000_000.0` on the denotation.  The model
multiplies exactly; the rounded f64 product lies in the same closed
interval, so every bound the decoder relies on below is preserved. -/
def mulMilliard (x : F64) : F64 :=
  match x with
  | .finite q => .finite (mkRat (q.num * 1000000000) q.den)
  | .nan => .nan
  | .inf => .inf
  | .neginf => .neginf

/-- Days from 1970-01-01 of a proleptic Gregorian civil date
(the standard civil-from-days inverse used to model the chrono date
range; `m` is 1 to 12, `d` is 1-based). -/
def daysFromCivil (y : Int) (m : Nat) (d : Nat) : Int :=
  let yAdj : Int := if m ≤ 2 then y - 1 else y
  let era : Int := Int.fdiv yAdj 400
  let yoe : Int := yAdj - era * 400
  let mp : Int := (m : Int) + (if 2 < m then -3 else 9)
  let doy : Int := (153 * mp + 2) / 5 + (d : Int) - 1
  let doe : Int := yoe * 365 + yoe / 4 - yoe / 100 + doy
  era * 146097 + doe - 719468

/-- Smallest `num_days_from_ce` chrono accepts (January 1 of year
-262144, the minimum chrono year). -/
def chronoMinDaysCE : Int := daysFromCivil (-262144) 1 1 + 719163

/-- Largest `num_days_from_ce` chrono accepts (December 31 of year
262143, the maximum chrono year). -/
def chronoMaxDaysCE : Int := daysFromCivil 262143 12 31 + 719163

/-- chrono `DateTime::<Utc>::from_timestamp`: valid when the nanosecond
argument is below two milliard (the leap-second headroom) and the day
computed with Euclidean division lies in the chrono date range. -/
def chronoFromTimestamp (secs : Int) (nsecs : Nat) : Option ChronoDate :=
  if 2000000000 ≤ nsecs then none
  else
    let days := Int.fdiv secs 86400 + 719163
    if chronoMinDaysCE ≤ days ∧ days ≤ chronoMaxDaysCE then
      some ⟨secs, nsecs⟩
    else none

/-- The Unix epoch: `DateTime::<Utc>::default()`. -/
def epochDate : ChronoDate := ⟨0, 0⟩

/-- The date computation of the `d` branch of `from_reader_inner`:
truncate the f64 toward zero with a saturating cast for the seconds,
take the fractional part times a milliard with a saturating `u32` cast
for the nanoseconds, and substitute the default date when chrono rejects
the pair. -/
def decodeDateF64 (x : F64) : ChronoDate :=
  (chronoFromTimestamp (truncAsI64 x)
    (f64AsU32 (mulMilliard (f64Fract x)))).getD epochDate

/-- The f64 value the Date branch of the binary `write_inner` computes:
`v.timestamp() as f64 + v.timestamp_subsec_nanos() as f64 / 1e9`, as an
exact rational (chrono `timestamp()` floors, `timestamp_subsec_nanos()`
is the nonnegative sub-second part). -/
def binWriteDateReal (d : ChronoDate) : ℚ :=
  (d.secs : ℚ) + (d.nanos : ℚ) / 1000000000

/-- The anyhow error cases of the binary decoder, by kind. -/
inductive BinErr where
  | ioErr
  | utf8
  | expected
  | unknownTag (b : Nat)
  deriving DecidableEq, Repr

/-- The binary `unescape` (quoted string-like payloads): same escape
grammar as the notation codec, except that its `hex` helper maps a
non-hex byte to 0 instead of failing, and every short read is an Io
error. -/
def binUnescape (delim : Nat) : ByteStr → Except BinErr (ByteStr × ByteStr)
  | [] => .error .ioErr
  | c :: rest =>
    if c = delim then .ok ([], rest)
    else if c = 92 then
      match rest with
      | [] => .error .ioErr
      | e :: rest2 =>
        if e = 120 then
          match rest2 with
          | h1 :: h2 :: rest3 =>
            (binUnescape delim rest3).map fun (bs, r) =>
              (((hexVal h1).getD 0 * 16 + (hexVal h2).getD 0) % 256 :: bs, r)
          | _ => .error .ioErr
        else
          (binUnescape delim rest2).map fun (bs, r) => (escCharByte e :: bs, r)
    else
      (binUnescape delim rest).map fun (bs, r) => (c :: bs, r)

/-- A big-endian i32 length followed by that many raw bytes (the shared
shape of the `s`, `l` and `b` payloads; the length goes through
`as usize` sign extension). -/
def binSized (s : ByteStr) : Except BinErr (ByteStr × ByteStr) :=
  if 4 ≤ s.length then
    let len := i32AsUsize (i32OfNat (beBytesToNat (s.take 4)))
    let r := s.drop 4
    if len ≤ r.length then .ok (r.take len, r.drop len)
    else .error .ioErr
  else .error .ioErr

/-- The pending-call states of the binary decoder: a tagged value, the
count-driven array-element loop, or the count-driven map-entry loop.
When the count reaches zero the loop state also verifies the closing
`]` / `}` byte, as the code does right after its `for` loop. -/
inductive BCall where
  | val (s : ByteStr)
  | arr (count : Nat) (s : ByteStr) (acc : List Llsd)
  | ment (count : Nat) (s : ByteStr) (acc : List (ByteStr × Llsd))

/-- `from_reader_inner` from `binary.rs` together with its two container
loops, in one structurally recursive function: dispatch on the one-byte
type tag.  The `fuel` argument is only a modelling device forcing
termination; `none` marks fuel exhaustion, which concrete evaluations
never reach. -/
def binStep (ext : Externals) : Nat → BCall → Option (Except BinErr (Llsd × ByteStr))
  | 0, _ => none
  | fuel + 1, .val s =>
    match s with
    | [] => some (.error .ioErr)
    | t :: r =>
      if t = 33 then some (.ok (.undefined, r))
      else if t = 49 then some (.ok (.boolean true, r))
      else if t = 48 then some (.ok (.boolean false, r))
      else if t = 105 then
        if 4 ≤ r.length then
          some (.ok (.integer (i32OfNat (beBytesToNat (r.take 4))), r.drop 4))
        else some (.error .ioErr)
      else if t = 114 then
        if 8 ≤ r.length then
          some (.ok (.real (f64FromBits (beBytesToNat (r.take 8))), r.drop 8))
        else some (.error .ioErr)
      else if t = 115 then
        match binSized r with
        | .error e => some (.error e)
        | .ok (buf, rest) =>
          if utf8Valid buf then some (.ok (.string buf, rest))
          else some (.error .utf8)
      else if t = 108 then
        match binSized r with
        | .error e => some (.error e)
        | .ok (buf, rest) =>
          if utf8Valid buf then some (.ok (.uri (ext.uriParse buf), rest))
          else some (.error .utf8)
      else if t = 117 then
        if 16 ≤ r.length then
          some (.ok (.uuid (beBytesToNat (r.take 16)), r.drop 16))
        else some (.error .ioErr)
      else if t = 100 then
        if 8 ≤ r.length then
          some (.ok (.date (decodeDateF64 (f64FromBits (leBytesToNat (r.take 8)))),
            r.drop 8))
        else some (.error .ioErr)
      else if t = 98 then
        match binSized r with
        | .error e => some (.error e)
        | .ok (buf, rest) => some (.ok (.binary buf, rest))
      else if t = 91 then
        if 4 ≤ r.length then
          binStep ext fuel
            (.arr (i32AsUsize (i32OfNat (beBytesToNat (r.take 4)))) (r.drop 4) [])
        else some (.error .ioErr)
      else if t = 123 then
        if 4 ≤ r.length then
          binStep ext fuel
            (.ment (i32AsUsize (i32OfNat (beBytesToNat (r.take 4)))) (r.drop 4) [])
        else some (.error .ioErr)
      else if t = 34 then
        match binUnescape 34 r with
        | .error e => some (.error e)
        | .ok (bs, rest) =>
          if utf8Valid bs then some (.ok (.string bs, rest))
          else some (.error .utf8)
      else if t = 39 then
        match binUnescape 39 r with
        | .error e => some (.error e)
        | .ok (bs, rest) =>
          if utf8Valid bs then some (.ok (.string bs, rest))
          else some (.error .utf8)
      else some (.error (.unknownTag t))
  | _ + 1, .arr 0 s acc =>
    match s with
    | 93 :: rest => some (.ok (.array acc, rest))
    | _ :: _ => some (.error .expected)
    | [] => some (.error .ioErr)
  | fuel + 1, .arr (count + 1) s acc =>
    match binStep ext fuel (.val s) with
    | none => none
    | some (.error e) => some (.error e)
    | some (.ok (v, rest)) => binStep ext fuel (.arr count rest (acc ++ [v]))
  | _ + 1, .ment 0 s acc =>
    match s with
    | 125 :: rest => some (.ok (.map acc, rest))
    | _ :: _ => some (.error .expected)
    | [] => some (.error .ioErr)
  | fuel + 1, .ment (count + 1) s acc =>
    match s with
    | 107 :: r =>
      match binSized r with
      | .error e => some (.error e)
      | .ok (key, rest) =>
        if utf8Valid key then
          match binStep ext fuel (.val rest) with
          | none => none
          | some (.error e) => some (.error e)
          | some (.ok (v, rest2)) =>
            binStep ext fuel (.ment count rest2 (insertAssoc acc key v))
        else some (.error .utf8)
    | _ :: _ => some (.error .expected)
    | [] => some (.error .ioErr)

/-- `from_reader_inner` from `binary.rs` (entry point of one tagged
value). -/
def binFromReaderInner (ext : Externals) (fuel : Nat) (s : ByteStr) :
    Option (Except BinErr (Llsd × ByteStr)) :=
  binStep ext fuel (.val s)

/-! ## Auxiliary definitions for the theorems -/

/-- Claim-side segment resolution for pointer navigation, worded from the
specification: each (already unescaped) segment is resolved as a numeric
index on an Array or as a key on a Map; any type mismatch, non-numeric
Array index, or out-of-range index yields no result. -/
def resolveSegsSpec : Llsd → List ByteStr → Option Llsd
  | v, [] => some v
  | .array xs, t :: rest =>
    match parseUsize t with
    | some i =>
      match xs.get? i with
      | some child => resolveSegsSpec child rest
      | none => none
    | none => none
  | .map m, t :: rest =>
    match lookupAssoc m t with
    | some child => resolveSegsSpec child rest
    | none => none
  | _, _ :: _ => none

/-- The example value of the pointer-navigation claim:
`{"a": [1, 2, {"b": 3}]}` (keys as ASCII bytes). -/
def exampleMapV : Llsd :=
  .map [([97], .array [.integer 1, .integer 2, .map [([98], .integer 3)]])]

/-- A concrete externals record (all collaborators degenerate), used only
to instantiate universally quantified theorems in witnesses. -/
def trivialExternals : Externals :=
  ⟨fun _ => [], fun _ => [], fun _ => [], fun _ => none, fun _ => none,
   fun _ => none, fun _ => .empty⟩

/-- Whether a value is an Array. -/
def Llsd.isArrayB : Llsd → Bool
  | .array _ => true
  | _ => false

/-- Whether a value is a Map. -/
def Llsd.isMapB : Llsd → Bool
  | .map _ => true
  | _ => false

/-- Whether a value is Undefined. -/
def Llsd.isUndefB : Llsd → Bool
  | .undefined => true
  | _ => false

/-- Lowercase hex digit (as used by the `\xHH` entries of the escape
table). -/
def hexDigitLower (n : Nat) : Nat :=
  if n < 10 then 48 + n else 97 + (n - 10)

/-- The `\xHH` escape of one byte, lowercase. -/
def hexEscapeBytes (b : Nat) : List Nat :=
  [92, 120, hexDigitLower (b / 16), hexDigitLower (b % 16)]

/-- The notation encoding of `Llsd::Integer(i32::MIN)`:
the bytes of `i-2147483648`. -/
def iMinBytes : ByteStr := [105, 45, 50, 49, 52, 55, 52, 56, 51, 54, 52, 56]

/-! ## Helper lemmas -/

/-- Resolution of the empty segment list. -/
theorem resolveSegsSpec_nil (v : Llsd) : resolveSegsSpec v [] = some v := by
  cases v <;> rfl

/-- One resolution step unfolds through `pointerStep`. -/
theorem resolveSegsSpec_cons (v : Llsd) (t : ByteStr) (rest : List ByteStr) :
    resolveSegsSpec v (t :: rest) =
      (pointerStep v t).bind fun x => resolveSegsSpec x rest := by
  cases v with
  | array xs =>
    simp only [resolveSegsSpec, pointerStep]
    cases hp : parseUsize t with
    | none => rfl
    | some i => cases hg : xs[i]? <;> simp [hg]
  | map m =>
    simp only [resolveSegsSpec, pointerStep]
    cases hl : lookupAssoc m t <;> simp [hl]
  | undefined => rfl
  | boolean b => rfl
  | integer n => rfl
  | real x => rfl
  | string s => rfl
  | uri u => rfl
  | uuid u => rfl
  | date d => rfl
  | binary b => rfl

/-- Option-monad left fold equals the explicit recursive resolution. -/
theorem foldlM_pointerStep_eq_resolve (segs : List ByteStr) (v : Llsd) :
    segs.foldlM pointerStep v = resolveSegsSpec v segs := by
  induction segs generalizing v with
  | nil => rw [resolveSegsSpec_nil]; rfl
  | cons t rest ih =>
    rw [List.foldlM_cons, resolveSegsSpec_cons]
    cases hps : pointerStep v t with
    | none => rfl
    | some x => simpa using ih x

/-- The structural power function agrees with `2 ^ k`. -/
theorem pow2_eq (n : Nat) : pow2 n = 2 ^ n := by
  induction n with
  | zero => rfl
  | succ n ih => simp [pow2, ih, Nat.pow_succ, Nat.mul_comm]

/-! ## Claim theorems -/

/-- C1.  The specification states that notation decoding of N nested
arrays fails with a MaxDepth error when N exceeds `max_depth`, every
recursive call running on a budget one smaller.  The code instead
recurses with `max_depth + 1`, so the guard never fires once the budget
is positive: two (and three) nested arrays decode successfully with
`max_depth = 1`.  Only a budget of exactly zero raises MaxDepth (and it
rejects even a single array).  The inputs are the bytes of `[[]]`,
`[[[]]]` and `[]`. -/
theorem c1_depth_guard_dead :
    (∀ ext : Externals,
      notationFromBytes ext [91, 91, 93, 93] 1 =
        some (.ok (.array [.array []]))) ∧
    (∀ ext : Externals,
      notationFromBytes ext [91, 91, 91, 93, 93, 93] 1 =
        some (.ok (.array [.array [.array []]]))) ∧
    (∀ ext : Externals,
      notationFromBytes ext [91, 93] 0 = some (.error .maxDepth)) :=
  ⟨fun _ => rfl, fun _ => rfl, fun _ => rfl⟩

/-- C2.  The notation round-trip fails on the representable value
`Integer(i32::MIN)`: under every formatter configuration the encoder
emits `i-2147483648`, and the decoder (with any positive depth budget)
consumes the sign, then parses the magnitude `2147483648` as an `i32`,
which overflows, so decoding aborts with the wrapped integer-literal
error instead of returning the value. -/
theorem c2_roundtrip_fails_at_int_min :
    ∀ (ext : Externals) (ctx : FormatterContext) (d : Nat),
      notationToVec ext (.integer (-2147483648)) ctx = iMinBytes ∧
      notationFromBytes ext iMinBytes (d + 1) = some (.error .intErr) := by
  intro ext ctx d
  refine ⟨?_, rfl⟩
  simp only [notationToVec, writeInner]
  rfl

/-- C4.  Pretty-print idempotence fails on `Integer(i32::MIN)`: with the
pretty-print configuration the encoder emits `i-2147483648`, and decoding
that output fails with the integer-literal error (for any positive depth
budget), so no re-encoding exists, let alone a byte-identical one. -/
theorem c4_pretty_idempotence_fails_at_int_min :
    ∀ (ext : Externals) (d : Nat),
      notationToVec ext (.integer (-2147483648))
        { FormatterContext.new with pretty := true } = iMinBytes ∧
      notationFromBytes ext iMinBytes (d + 1) = some (.error .intErr) := by
  intro ext d
  refine ⟨?_, rfl⟩
  simp only [notationToVec, writeInner]
  rfl

/-- C8.  Parsing `i` followed by the ordinary decimal representation of a
32-bit integer succeeds for every value except `i32::MIN`: the explicit
sign peek strips the minus, the remaining magnitude `2147483648` no
longer fits in `i32`, and the parse fails with the integer-literal
error.  Both `i2147483647` and `i-2147483647` still parse to the
expected values. -/
theorem c8_integer_min_parse_fails :
    ∀ (ext : Externals) (d : Nat),
      notationFromBytes ext iMinBytes (d + 1) = some (.error .intErr) ∧
      notationFromBytes ext [105, 50, 49, 52, 55, 52, 56, 51, 54, 52, 55]
        (d + 1) = some (.ok (.integer 2147483647)) ∧
      notationFromBytes ext [105, 45, 50, 49, 52, 55, 52, 56, 51, 54, 52, 55]
        (d + 1) = some (.ok (.integer (-2147483647))) :=
  fun _ _ => ⟨rfl, rfl, rfl⟩

/-- C3.  The binary round-trip fails on a Date value: for the instant
half a second before the Unix epoch (chrono seconds -1, nanoseconds
500000000) the encoder computes the f64 `-0.5` (exactly representable,
so the model arithmetic coincides with the machine arithmetic; its
little-endian IEEE bytes are `00 00 00 00 00 00 E0 BF`), and the decoder
truncates toward zero to 0 seconds while the saturating `u32` cast sends
the negative fractional part to 0 nanoseconds, yielding the epoch
instead of the original instant. -/
theorem c3_binary_date_roundtrip_fails :
    binWriteDateReal ⟨-1, 500000000⟩ = -(1 / 2 : ℚ) ∧
    (mkRat (-1) 2 : ℚ) = -(1 / 2 : ℚ) ∧
    f64FromBits (leBytesToNat [0, 0, 0, 0, 0, 0, 224, 191]) =
      .finite (mkRat (-1) 2) ∧
    (∀ (ext : Externals) (fuel : Nat),
      binFromReaderInner ext (fuel + 1) (100 :: [0, 0, 0, 0, 0, 0, 224, 191]) =
        some (.ok (.date epochDate, []))) ∧
    decodeDateF64 (.finite (mkRat (-1) 2)) = epochDate ∧
    epochDate ≠ (⟨-1, 500000000⟩ : ChronoDate) := by
  refine ⟨by norm_num [binWriteDateReal], ?_, by decide, fun ext fuel => rfl,
    by decide, by decide⟩
  rw [Rat.mkRat_eq_divInt, Rat.divInt_eq_div]
  norm_num

/-- C5.  Pointer navigation behaves as specified: the empty path resolves
to the value itself; a non-empty path not starting with a slash yields no
result; otherwise the slash-separated segments (after the `~1` and `~0`
unescapes) are resolved recursively, each as a numeric Array index or a
Map key, with every mismatch yielding no result; and on
`{"a": [1, 2, {"b": 3}]}` the path `/a/2/b` resolves to `3` while `/a/9`
resolves to nothing. -/
theorem c5_pointer_navigation :
    (∀ v : Llsd, pointer v [] = some v) ∧
    (∀ (v : Llsd) (p : ByteStr), p ≠ [] → p.head? ≠ some 47 →
      pointer v p = none) ∧
    (∀ (v : Llsd) (p : ByteStr), p.head? = some 47 →
      pointer v p =
        resolveSegsSpec v (((splitByte 47 p).drop 1).map unescapeSeg)) ∧
    pointer exampleMapV [47, 97, 47, 50, 47, 98] = some (.integer 3) ∧
    pointer exampleMapV [47, 97, 47, 57] = none := by
  refine ⟨fun v => rfl, ?_, ?_, rfl, rfl⟩
  · intro v p hne hh
    unfold pointer
    rw [if_neg hne, if_pos hh]
  · intro v p hh
    have hne : p ≠ [] := by
      intro hcon
      subst hcon
      simp at hh
    unfold pointer
    rw [if_neg hne, if_neg (fun hcon => hcon hh),
      foldlM_pointerStep_eq_resolve]

/-- Witness for C5: the hypothesis-bearing clauses applied at concrete
inputs. -/
theorem c5_pointer_navigation_witness :
    pointer (.integer 1) [97] = none ∧
    pointer exampleMapV [47, 97] =
      resolveSegsSpec exampleMapV
        (((splitByte 47 [47, 97]).drop 1).map unescapeSeg) :=
  ⟨c5_pointer_navigation.2.1 (.integer 1) [97] (by decide) (by decide),
   c5_pointer_navigation.2.2.1 exampleMapV [47, 97] (by decide)⟩

/-- C6 counterexample.  The claim asserts that indexing through the
convenience operator on a value of the wrong shape panics; but the
read-only `ops::Index` impl is `index_into(self).unwrap_or(&NULL)`, a
total function with no panic path: indexing an Integer with an array
position or with a string key evaluates to the shared Undefined view. -/
theorem c6_read_index_counterexample :
    opsIndex (.integer 5) (.usize 0) = .undefined ∧
    opsIndex (.integer 5) (.str [107]) = .undefined :=
  ⟨rfl, rfl⟩

/-- C6 amended.  Only the mutable indexing path (`index_or_insert`)
panics on a wrong-shape receiver (or an out-of-range Array position);
the read-only operator returns the Undefined view on every miss and
never mutates (it is a pure projection of the receiver).
Auto-vivification happens exactly on the mutable path with a string key
and an Undefined receiver, which becomes a one-entry Map. -/
theorem c6_indexing_amended :
    (∀ (v : Llsd) (i : Nat), v.isArrayB = false →
      indexOrInsert (.usize i) v = none) ∧
    (∀ (xs : List Llsd) (i : Nat), xs.length ≤ i →
      indexOrInsert (.usize i) (.array xs) = none) ∧
    (∀ (xs : List Llsd) (i : Nat), i < xs.length →
      indexOrInsert (.usize i) (.array xs) = some (.array xs)) ∧
    (∀ (v : Llsd) (k : ByteStr), v.isMapB = false → v.isUndefB = false →
      indexOrInsert (.str k) v = none) ∧
    (∀ k : ByteStr,
      indexOrInsert (.str k) .undefined = some (.map [(k, .undefined)])) ∧
    (∀ (v : Llsd) (i : Idx), opsIndex v i = (indexInto i v).getD .undefined) ∧
    (∀ (v : Llsd) (i : Nat), v.isArrayB = false →
      opsIndex v (.usize i) = .undefined) ∧
    (∀ (v : Llsd) (k : ByteStr), v.isMapB = false →
      opsIndex v (.str k) = .undefined) := by
  refine ⟨?_, ?_, ?_, ?_, fun k => rfl, fun v i => rfl, ?_, ?_⟩
  · intro v i hv
    cases v <;> simp_all [indexOrInsert, Llsd.isArrayB]
  · intro xs i hle
    simp [indexOrInsert, Nat.not_lt.mpr hle]
  · intro xs i hlt
    simp [indexOrInsert, hlt]
  · intro v k hm hu
    cases v <;> simp_all [indexOrInsert, Llsd.isMapB, Llsd.isUndefB]
  · intro v i hv
    cases v <;> simp_all [opsIndex, indexInto, Llsd.isArrayB]
  · intro v k hv
    cases v <;> simp_all [opsIndex, indexInto, Llsd.isMapB]

/-- Witness for C6: the amended clauses applied at concrete inputs. -/
theorem c6_indexing_amended_witness :
    indexOrInsert (.usize 0) (.integer 7) = none ∧
    indexOrInsert (.usize 3) (.array [.integer 1]) = none ∧
    indexOrInsert (.usize 0) (.array [.integer 1]) =
      some (.array [.integer 1]) ∧
    indexOrInsert (.str [107]) (.boolean true) = none ∧
    opsIndex (.boolean true) (.usize 2) = .undefined ∧
    opsIndex (.boolean true) (.str [107]) = .undefined :=
  ⟨c6_indexing_amended.1 (.integer 7) 0 (by decide),
   c6_indexing_amended.2.1 [.integer 1] 3 (by decide),
   c6_indexing_amended.2.2.1 [.integer 1] 0 (by decide),
   c6_indexing_amended.2.2.2.1 (.boolean true) [107] (by decide) (by decide),
   c6_indexing_amended.2.2.2.2.2.2.1 (.boolean true) 2 (by decide),
   c6_indexing_amended.2.2.2.2.2.2.2 (.boolean true) [107] (by decide)⟩

/-- C7 counterexample.  The claim asserts that every printable ASCII
byte (0x20 through 0x7E) passes through the escape table unchanged; the
apostrophe 0x27 is printable yet its table entry is the two-byte escape
`\'`, not the byte itself. -/
theorem c7_escape_table_counterexample :
    32 ≤ 39 ∧ 39 ≤ 126 ∧ escByte 39 ≠ [39] := by
  decide

/-- C7 amended.  The escape table has 256 entries; every printable ASCII
byte passes through unchanged except the apostrophe (escaped as a
backslash and an apostrophe) and the backslash (escaped as a doubled
backslash); the seven control characters with mnemonics are written as
those mnemonics; and every other non-printable or non-ASCII byte is
written as the lowercase hex escape.  The writer escapes text
byte-by-byte through the table. -/
theorem c7_escape_table_amended :
    STRING_CHARACTERS.length = 256 ∧
    (∀ b : Nat, b ≤ 126 → 32 ≤ b → b ≠ 39 → b ≠ 92 → escByte b = [b]) ∧
    escByte 39 = [92, 39] ∧
    escByte 92 = [92, 92] ∧
    (escByte 7 = [92, 97] ∧ escByte 8 = [92, 98] ∧ escByte 9 = [92, 116] ∧
      escByte 10 = [92, 110] ∧ escByte 11 = [92, 118] ∧
      escByte 12 = [92, 102] ∧ escByte 13 = [92, 114]) ∧
    (∀ b : Nat, b < 256 → (b < 32 ∧ (b < 7 ∨ 13 < b)) ∨ 127 ≤ b →
      escByte b = hexEscapeBytes b) ∧
    (∀ s : ByteStr, write_string s = s.flatMap escByte) := by
  refine ⟨by decide, by decide, by decide, by decide, by decide, by decide,
    fun s => rfl⟩

/-- Witness for C7: the bounded clauses applied at concrete bytes. -/
theorem c7_escape_table_amended_witness :
    escByte 65 = [65] ∧ escByte 0 = hexEscapeBytes 0 :=
  ⟨c7_escape_table_amended.2.1 65 (by decide) (by decide) (by decide)
    (by decide),
   c7_escape_table_amended.2.2.2.2.2.1 0 (by decide) (by decide)⟩

/-- C9.  Numeric coercion to native integer types (the `impl_from_int`
macro instantiations): `Boolean(true)` converts to 1 for an unsigned
target; `String("42")` (bytes 52 50) parses through the target type
grammar to 42; `String("abc")` (bytes 97 98 99) fails with the typed
"Invalid integer" error rather than a default value; the same holds at
the signed 64-bit instantiation. -/
theorem c9_numeric_coercion :
    tryFromLlsdU32 (.boolean true) = .ok 1 ∧
    tryFromLlsdU32 (.string [52, 50]) = .ok 42 ∧
    tryFromLlsdU32 (.string [97, 98, 99]) = .error .invalidInteger ∧
    tryFromLlsdI64 (.boolean true) = .ok 1 ∧
    tryFromLlsdI64 (.string [52, 50]) = .ok 42 ∧
    tryFromLlsdI64 (.string [97, 98, 99]) = .error .invalidInteger :=
  ⟨rfl, rfl, rfl, rfl, rfl, rfl⟩

/-- C10.  Binary decoding of a `d` tag never fails on the
date-construction step: for every 8-byte payload the decoder returns a
Date built from the little-endian f64 denotation, substituting the
default date (the Unix epoch) whenever chrono rejects the
timestamp-nanosecond pair, and a NaN payload also decodes to the
epoch. -/
theorem c10_date_decode_total :
    ∀ (ext : Externals) (fuel : Nat) (payload rest : ByteStr),
      payload.length = 8 →
      binFromReaderInner ext (fuel + 1) (100 :: (payload ++ rest)) =
        some (.ok (.date (decodeDateF64 (f64FromBits (leBytesToNat payload))),
          rest)) ∧
      (chronoFromTimestamp (truncAsI64 (f64FromBits (leBytesToNat payload)))
          (f64AsU32 (mulMilliard (f64Fract
            (f64FromBits (leBytesToNat payload))))) = none →
        decodeDateF64 (f64FromBits (leBytesToNat payload)) = epochDate) ∧
      decodeDateF64 .nan = epochDate := by
  intro ext fuel payload rest h
  refine ⟨?_, ?_, by decide⟩
  · have hlen : 8 ≤ (payload ++ rest).length := by
      rw [List.length_append, h]
      omega
    have ht : (payload ++ rest).take 8 = payload := by
      rw [← h]
      simp
    have hd : (payload ++ rest).drop 8 = rest := by
      rw [← h]
      simp
    simp [binFromReaderInner, binStep, hlen, ht, hd, List.length_append, h]
  · intro hnone
    unfold decodeDateF64
    rw [hnone]
    rfl

/-- Witness for C10: the payload whose f64 denotation is 2 to the power
1023, far outside the chrono timestamp range, decodes to the epoch. -/
theorem c10_date_decode_total_witness :
    ([0, 0, 0, 0, 0, 0, 224, 127] : ByteStr).length = 8 ∧
    binFromReaderInner trivialExternals 1
      (100 :: ([0, 0, 0, 0, 0, 0, 224, 127] ++ [])) =
      some (.ok (.date epochDate, [])) := by
  have h := c10_date_decode_total trivialExternals 0
    [0, 0, 0, 0, 0, 0, 224, 127] [] (by rfl)
  refine ⟨by rfl, ?_⟩
  rw [h.1]
  have hepoch : decodeDateF64
      (f64FromBits (leBytesToNat [0, 0, 0, 0, 0, 0, 224, 127])) = epochDate :=
    h.2.1 (by rfl)
  rw [hepoch]

end LlsdRs
